import Mathlib

/-!
Verification of the paged-retrieval-and-parse pipeline of the pubmedtools
package (`pubmedtools/pubmedtools.py`), against its design specification.

The embedding models:
* `pubmed_search_biopython` (the API path): credential assignment on the
  shared module-level client, the 10,000-result ceiling check, the
  `range(0, count, batch_size)` batch loop with its `efetch` requests and
  inter-batch `time.sleep(3)` throttle, and the per-record Medline field
  extraction (including the `re.sub('\s+', ' ', _)` whitespace collapsing
  of `ti` and `ab` and the `int(pmid)` coercion).
* the record-extraction loop of `pubmed_search_edirect` (the local-tool
  path), which copies `ti` and `ab` verbatim.

External effects (the Entrez network calls and the wall clock) are made
explicit: the remote fetch is an oracle parameter, and the observable
requests and sleeps are returned as an event trace.
-/

/-- Whitespace characters matched by Python's `re` pattern `\s` on `str`
(ASCII `[ \t\n\r\f\v]` together with the Unicode whitespace set). -/
def isWS (c : Char) : Bool :=
  c ∈ ([' ', '\t', '\n', '\r', '\x0b', '\x0c',
        '\x1c', '\x1d', '\x1e', '\x1f', '\x85', '\xa0',
        '\u1680', '\u2000', '\u2001', '\u2002', '\u2003', '\u2004',
        '\u2005', '\u2006', '\u2007', '\u2008', '\u2009', '\u200a',
        '\u2028', '\u2029', '\u202f', '\u205f', '\u3000'] : List Char)

/-- One pass of `re.sub('\s+', ' ', s)` over the characters: every maximal
run of whitespace characters becomes a single space.  `prevWS` records
whether the previous character belonged to a whitespace run whose space has
already been emitted. -/
def collapseAux : Bool → List Char → List Char
  | _, [] => []
  | prevWS, c :: rest =>
    if isWS c then
      if prevWS then collapseAux true rest
      else ' ' :: collapseAux true rest
    else c :: collapseAux false rest

/-- `re.sub('\s+', ' ', s)`, as used on the `TI` and `AB` tags. -/
def collapseWS (s : String) : String :=
  String.mk (collapseAux false s.data)

/-- Value of a Nat decimal digit string. -/
def digitsToNat (ds : List Char) : Nat :=
  ds.foldl (fun a c => a * 10 + (c.toNat - 48)) 0

/-- Python's `int(s)` on a string: surrounding whitespace is stripped, an
optional sign is allowed, and at least one decimal digit is required;
anything else raises `ValueError` (here: `none`).  Underscore digit
separators and non-ASCII digits, which CPython also accepts, are not
modelled (no claim depends on them). -/
def pyInt (s : String) : Option Int :=
  let cs := ((s.data.dropWhile isWS).reverse.dropWhile isWS).reverse
  match cs with
  | [] => none
  | c :: rest =>
    if c = '-' then
      if rest ≠ [] ∧ rest.all Char.isDigit then some (-(digitsToNat rest : Int)) else none
    else if c = '+' then
      if rest ≠ [] ∧ rest.all Char.isDigit then some (digitsToNat rest : Int) else none
    else
      if (c :: rest).all Char.isDigit then some (digitsToNat (c :: rest) : Int) else none

/-- A Medline field value as handed back by `record.get(tag, '')`: either a
scalar string or a list of strings (`FAU`, `MH`, `OT` are list-valued when
present, and default to the empty *string* when absent). -/
inductive Val where
  | s : String → Val
  | l : List String → Val
deriving DecidableEq, Repr

/-- `record.get(tag, '')` for a list-valued Medline tag. -/
def getListTag : Option (List String) → Val
  | none => Val.s ""
  | some xs => Val.l xs

/-- A raw Medline record restricted to the tags the code reads.  `none`
models an absent tag.  `PMID`, `TI`, `AB`, `DP` are scalar tags; `FAU`,
`MH`, `OT` are list tags. -/
structure RawRecord where
  PMID : Option String := none
  TI : Option String := none
  AB : Option String := none
  FAU : Option (List String) := none
  DP : Option String := none
  MH : Option (List String) := none
  OT : Option (List String) := none
deriving DecidableEq, Repr

/-- One row of the returned table. -/
structure Row where
  pmid : Int
  ti : String
  ab : String
  fau : Val
  dp : String
  mh : Val
  ot : Val
deriving DecidableEq, Repr

/-- The error kinds the modelled code can raise. -/
inductive Err where
  /-- The `count > 10000` ceiling `Exception` (`ResultSetTooLarge`). -/
  | tooLarge
  /-- `ValueError` from `range(0, count, 0)`. -/
  | valueError
  /-- A failure of the remote fetch (`TransportError`). -/
  | transport
  /-- `ValueError` from `int(pmid)` on a missing or non-numeric `PMID`
  (`MalformedRecord`). -/
  | malformed
deriving DecidableEq, Repr

/-- The per-record extraction of the API path (`pubmed_search_biopython`,
loop body at lines 113-136): `ti` and `ab` are whitespace-collapsed, `pmid`
is coerced with `int`, the remaining tags are copied verbatim with default
`''`. -/
def parseRecord (rec : RawRecord) : Except Err Row :=
  let ab := collapseWS (rec.AB.getD "")
  let ti := collapseWS (rec.TI.getD "")
  match pyInt (rec.PMID.getD "") with
  | none => Except.error Err.malformed
  | some n =>
    Except.ok { pmid := n, ti := ti, ab := ab,
                fau := getListTag rec.FAU, dp := rec.DP.getD "",
                mh := getListTag rec.MH, ot := getListTag rec.OT }

/-- Extraction of a whole fetched batch, aborting at the first record whose
`PMID` fails to coerce (the `int(pmid)` exception propagates). -/
def parseRecords : List RawRecord → Except Err (List Row)
  | [] => Except.ok []
  | rec :: rest =>
    match parseRecord rec with
    | Except.error e => Except.error e
    | Except.ok row =>
      match parseRecords rest with
      | Except.error e => Except.error e
      | Except.ok rows => Except.ok (row :: rows)

/-- The per-record extraction of the local-tool path
(`pubmed_search_edirect`, loop body at lines 228-247): identical to the API
path except that `ti` and `ab` are copied verbatim, with no whitespace
collapsing. -/
def parseRecordEdirect (rec : RawRecord) : Except Err Row :=
  let ab := rec.AB.getD ""
  let ti := rec.TI.getD ""
  match pyInt (rec.PMID.getD "") with
  | none => Except.error Err.malformed
  | some n =>
    Except.ok { pmid := n, ti := ti, ab := ab,
                fau := getListTag rec.FAU, dp := rec.DP.getD "",
                mh := getListTag rec.MH, ot := getListTag rec.OT }

/-- Number of elements of Python's `range(start, stop, step)` for
`step ≠ 0`. -/
def pyRangeLen (start stop step : Int) : Nat :=
  if 0 < step then
    (if start < stop then ((stop - start).toNat + step.toNat - 1) / step.toNat else 0)
  else
    (if stop < start then ((start - stop).toNat + (-step).toNat - 1) / (-step).toNat else 0)

/-- Python's `range(start, stop, step)` as a list, for `step ≠ 0`. -/
def pyRange (start stop step : Int) : List Int :=
  (List.range (pyRangeLen start stop step)).map (fun i => start + step * Int.ofNat i)

/-- The batch plan of the API path: the loop
`for start in range(0, count, batch_size)` handles, at each `start`, the
records of `[start, min(start + batch_size, count))`, i.e. a batch of size
`min(batch_size, count - start)` (cf. the progress line at source line 97). -/
def planBatches (count batchSize : Nat) : List (Nat × Nat) :=
  (pyRange 0 (count : Int) (batchSize : Int)).map
    (fun s => (s.toNat, min batchSize (count - s.toNat)))

/-- The indices covered by a batch plan, in order. -/
def cells : List (Nat × Nat) → List Nat
  | [] => []
  | p :: ps => List.range' p.1 p.2 ++ cells ps

/-- `ceil(count / batchSize)`, the number of batches. -/
def numBatches (count batchSize : Nat) : Nat :=
  (count + batchSize - 1) / batchSize

/-- The state of the shared module-level `Entrez` client. -/
structure EntrezState where
  email : String
  api_key : Option String
deriving DecidableEq, Repr

/-- Python truthiness of the `api_key` argument (`None` and `''` are
falsy). -/
def pyTruthy : Option String → Bool
  | none => false
  | some s => !(s == "")

/-- Lines 75-78: `Entrez.email = email` runs unconditionally;
`Entrez.api_key = api_key` runs only under `if api_key:`. -/
def setCredentials (st : EntrezState) (email : String) (api_key : Option String) :
    EntrezState :=
  { email := email,
    api_key := if pyTruthy api_key then api_key else st.api_key }

/-- What `esearch` with `usehistory="y"` returns: the total match count and
the continuation token pair. -/
structure SearchResults where
  Count : Nat
  WebEnv : String
  QueryKey : String
deriving DecidableEq, Repr

/-- Externally observable actions of the batch loop. -/
inductive Event where
  /-- An `Entrez.efetch` call with its `webenv`, `query_key`, `retstart`
  and `retmax` arguments. -/
  | fetch : String → String → Int → Int → Event
  /-- A `time.sleep` call with its duration. -/
  | sleep : Nat → Event
deriving DecidableEq, Repr

/-- The batch loop (lines 95-141), over the remaining list of `start`
offsets.  `fetchOracle` stands for the remote `efetch`+`Medline.parse`
round trip; a `.error` from it is a transport failure.  Returns the event
trace and either the accumulated rows or the first error. -/
def runBatches (sr : SearchResults) (batchSize : Int)
    (fetchOracle : Int → Except Unit (List RawRecord)) :
    List Int → List Row → List Event × Except Err (List Row)
  | [], acc => ([], Except.ok acc)
  | start :: rest, acc =>
    match fetchOracle start with
    | Except.error _ =>
      ([Event.fetch sr.WebEnv sr.QueryKey start batchSize], Except.error Err.transport)
    | Except.ok recs =>
      match parseRecords recs with
      | Except.error e =>
        ([Event.fetch sr.WebEnv sr.QueryKey start batchSize], Except.error e)
      | Except.ok rows =>
        if start + batchSize < (sr.Count : Int) then
          (Event.fetch sr.WebEnv sr.QueryKey start batchSize :: Event.sleep 3 ::
            (runBatches sr batchSize fetchOracle rest (acc ++ rows)).1,
           (runBatches sr batchSize fetchOracle rest (acc ++ rows)).2)
        else
          (Event.fetch sr.WebEnv sr.QueryKey start batchSize ::
            (runBatches sr batchSize fetchOracle rest (acc ++ rows)).1,
           (runBatches sr batchSize fetchOracle rest (acc ++ rows)).2)

/-- `pubmed_search_biopython` (lines 42-146), with the initial `esearch`
result `sr` and the remote fetch given as parameters.  Returns the updated
module-level client state, the event trace, and either the table rows (in
retrieval order) or the error raised. -/
def pubmed_search_biopython (st : EntrezState) (email : String)
    (api_key : Option String) (sr : SearchResults) (batch_size : Int)
    (fetchOracle : Int → Except Unit (List RawRecord)) :
    EntrezState × List Event × Except Err (List Row) :=
  if sr.Count > 10000 then
    (setCredentials st email api_key, [], Except.error Err.tooLarge)
  else if batch_size = 0 then
    (setCredentials st email api_key, [], Except.error Err.valueError)
  else
    (setCredentials st email api_key,
     runBatches sr batch_size fetchOracle (pyRange 0 (sr.Count : Int) batch_size) [])

/-- Number of `sleep` events in a trace. -/
def countSleeps (evs : List Event) : Nat :=
  evs.countP (fun e => match e with | Event.sleep _ => true | _ => false)

/-- Number of `fetch` events in a trace. -/
def countFetches (evs : List Event) : Nat :=
  evs.countP (fun e => match e with | Event.fetch _ _ _ _ => true | _ => false)

/-- Concrete client-state fixture. -/
def st0 : EntrezState := { email := "", api_key := none }

/-- An `esearch` result with a small count. -/
def srSmall : SearchResults := { Count := 3, WebEnv := "W", QueryKey := "K" }

/-- An `esearch` result whose count exceeds the 10,000 ceiling. -/
def srBig : SearchResults := { Count := 10001, WebEnv := "W", QueryKey := "K" }

/-- A record with a numeric `PMID` and every other tag absent. -/
def okRec : RawRecord := { PMID := some "7" }

/-- A record lacking the `PMID` tag. -/
def badRec : RawRecord := { TI := some "T" }

/-- A record whose title holds a whitespace run. -/
def wsRec : RawRecord := { PMID := some "1", TI := some "Foo\n\tBar" }

/-- A fetch oracle that always succeeds with one well-formed record. -/
def fetchOk : Int → Except Unit (List RawRecord) := fun _ => Except.ok [okRec]

/-- A fetch oracle failing at offset 2 (the second batch when `batch_size = 2`,
`count = 3`). -/
def fetchFailAt2 : Int → Except Unit (List RawRecord) :=
  fun s => if s = 2 then Except.error () else Except.ok [okRec]

/-- A fetch oracle returning a `PMID`-less record at offset 2. -/
def fetchBadAt2 : Int → Except Unit (List RawRecord) :=
  fun s => if s = 2 then Except.ok [badRec] else Except.ok [okRec]

theorem lt_numBatches_iff (count b k : Nat) (hb : 0 < b) :
    k < numBatches count b ↔ b * k < count := by
  unfold numBatches
  have h0 : k < (count + b - 1) / b ↔ k + 1 ≤ (count + b - 1) / b := Iff.rfl
  rw [h0, Nat.le_div_iff_mul_le hb]
  have h : (k + 1) * b = b * k + b := by ring
  rw [h]
  omega

theorem numBatches_zero (b : Nat) (hb : 0 < b) : numBatches 0 b = 0 := by
  unfold numBatches
  exact Nat.div_eq_of_lt (by omega)

theorem pyRange_pos (count b : Nat) (hb : 0 < b) :
    pyRange 0 (count : Int) (b : Int) =
      (List.range (numBatches count b)).map (fun i => ((b * i : Nat) : Int)) := by
  have hb' : (0 : Int) < (b : Int) := by exact_mod_cast hb
  have hlen : pyRangeLen 0 (count : Int) (b : Int) = numBatches count b := by
    unfold pyRangeLen numBatches
    rw [if_pos hb']
    by_cases hc : (0 : Int) < (count : Int)
    · rw [if_pos hc]
      have h1 : ((count : Int) - 0).toNat = count := by omega
      have h2 : ((b : Int)).toNat = b := by omega
      rw [h1, h2]
    · rw [if_neg hc]
      have hc0 : count = 0 := by omega
      subst hc0
      rw [Nat.zero_add]
      exact (Nat.div_eq_of_lt (by omega)).symm
  unfold pyRange
  rw [hlen]
  have hf : (fun i : Nat => (0 : Int) + (b : Int) * Int.ofNat i) =
      (fun i : Nat => ((b * i : Nat) : Int)) := by
    funext i
    simp only [Int.ofNat_eq_coe]
    push_cast
    ring
  rw [hf]

theorem cells_shift (a : Nat) (ps : List (Nat × Nat)) :
    cells (ps.map (fun p => (a + p.1, p.2))) = (cells ps).map (a + ·) := by
  induction ps with
  | nil => rfl
  | cons p ps ih =>
    simp only [List.map_cons, cells, List.map_append, ih, List.map_add_range']

theorem cells_planRange (b : Nat) (hb : 0 < b) :
    ∀ n count, n = numBatches count b →
      cells ((List.range n).map (fun i => (b * i, min b (count - b * i)))) =
        List.range count := by
  intro n
  induction n with
  | zero =>
    intro count h
    have hc0 : count = 0 := by
      by_contra hc
      have h1 : b * 0 < count := by omega
      have h2 := (lt_numBatches_iff count b 0 hb).mpr h1
      omega
    subst hc0
    rfl
  | succ n ih =>
    intro count h
    have hlow : b * n < count := (lt_numBatches_iff count b n hb).mp (by omega)
    have hhigh : count ≤ b * (n + 1) := by
      have h2 := lt_numBatches_iff count b (n + 1) hb
      omega
    rw [List.range_succ_eq_map, List.map_cons, List.map_map]
    by_cases hcb : count ≤ b
    · have hn0 : n = 0 := by
        by_contra hn
        have : b * 1 ≤ b * n := Nat.mul_le_mul_left b (by omega)
        omega
      subst hn0
      simp only [List.range_zero, List.map_nil, cells, Nat.mul_zero, Nat.sub_zero,
        List.append_nil]
      rw [Nat.min_eq_right hcb, List.range_eq_range']
    · push_neg at hcb
      have hfun : ∀ i,
          ((fun i => (b * i, min b (count - b * i))) ∘ Nat.succ) i =
            ((fun p : Nat × Nat => (b + p.1, p.2)) ∘
              (fun i => (b * i, min b ((count - b) - b * i)))) i := by
        intro i
        simp only [Function.comp_apply]
        have h1 : b * (i + 1) = b + b * i := by ring
        have h2 : count - (b + b * i) = (count - b) - b * i := by omega
        rw [Nat.succ_eq_add_one, h1, h2]
      rw [List.map_congr_left (fun i _ => hfun i)]
      have hnb : n = numBatches (count - b) b := by
        unfold numBatches at h ⊢
        have h3 : count + b - 1 = (count - 1) + b := by omega
        rw [h3, Nat.add_div_right _ hb] at h
        have h4 : count - b + b - 1 = count - 1 := by omega
        rw [h4]
        omega
      have ihc := ih (count - b) hnb
      rw [show List.map
            ((fun p : Nat × Nat => (b + p.1, p.2)) ∘
              (fun i => (b * i, min b ((count - b) - b * i)))) (List.range n) =
          List.map (fun p : Nat × Nat => (b + p.1, p.2))
            (List.map (fun i => (b * i, min b ((count - b) - b * i))) (List.range n))
        from (List.map_map _ _ _).symm]
      simp only [cells]
      rw [cells_shift b _, ihc]
      have hmin : min b count = b := Nat.min_eq_left (by omega)
      rw [Nat.mul_zero, Nat.sub_zero, hmin]
      rw [List.range_eq_range' (count - b), List.range_eq_range' count]
      rw [List.map_add_range' b 0 (count - b) 1]
      have happ := List.range'_append_1 0 b (count - b)
      rw [Nat.zero_add] at happ
      rw [Nat.add_zero, happ, show count - b + b = count from by omega]

theorem planBatches_eq (count b : Nat) (hb : 0 < b) :
    planBatches count b =
      (List.range (numBatches count b)).map (fun i => (b * i, min b (count - b * i))) := by
  unfold planBatches
  rw [pyRange_pos count b hb, List.map_map]
  apply List.map_congr_left
  intro i _
  simp only [Function.comp_apply, Int.toNat_natCast]

theorem parseRecord_error (rec : RawRecord) (e : Err)
    (h : parseRecord rec = Except.error e) : e = Err.malformed := by
  unfold parseRecord at h
  cases hq : pyInt (rec.PMID.getD "") with
  | none =>
    rw [hq] at h
    exact (Except.error.injEq _ _).mp h.symm
  | some n =>
    rw [hq] at h
    exact absurd h (by simp)

theorem parseRecords_error_malformed (recs : List RawRecord) (e : Err)
    (h : parseRecords recs = Except.error e) : e = Err.malformed := by
  induction recs with
  | nil => exact absurd h (by simp [parseRecords])
  | cons rec rest ih =>
    unfold parseRecords at h
    cases hp : parseRecord rec with
    | error e2 =>
      rw [hp] at h
      have he : e2 = e := (Except.error.injEq _ _).mp h
      rw [← he]
      exact parseRecord_error rec e2 hp
    | ok row =>
      rw [hp] at h
      cases hr : parseRecords rest with
      | error e2 =>
        rw [hr] at h
        have he : e2 = e := (Except.error.injEq _ _).mp h
        rw [← he] at ih ⊢
        exact ih hr
      | ok rows =>
        rw [hr] at h
        exact absurd h (by simp)

theorem runBatches_nil (sr : SearchResults) (b : Int)
    (f : Int → Except Unit (List RawRecord)) (acc : List Row) :
    runBatches sr b f [] acc = ([], Except.ok acc) := rfl

theorem runBatches_cons_err (sr : SearchResults) (b : Int)
    (f : Int → Except Unit (List RawRecord)) (s : Int) (rest : List Int)
    (acc : List Row) (u : Unit) (h : f s = Except.error u) :
    runBatches sr b f (s :: rest) acc =
      ([Event.fetch sr.WebEnv sr.QueryKey s b], Except.error Err.transport) := by
  unfold runBatches
  rw [h]

theorem runBatches_cons_parse_err (sr : SearchResults) (b : Int)
    (f : Int → Except Unit (List RawRecord)) (s : Int) (rest : List Int)
    (acc : List Row) (recs : List RawRecord) (e : Err)
    (h : f s = Except.ok recs) (hp : parseRecords recs = Except.error e) :
    runBatches sr b f (s :: rest) acc =
      ([Event.fetch sr.WebEnv sr.QueryKey s b], Except.error e) := by
  unfold runBatches
  rw [h]
  simp only [hp]

theorem runBatches_cons_ok_sleep (sr : SearchResults) (b : Int)
    (f : Int → Except Unit (List RawRecord)) (s : Int) (rest : List Int)
    (acc : List Row) (recs : List RawRecord) (rows : List Row)
    (h : f s = Except.ok recs) (hp : parseRecords recs = Except.ok rows)
    (hlt : s + b < (sr.Count : Int)) :
    runBatches sr b f (s :: rest) acc =
      (Event.fetch sr.WebEnv sr.QueryKey s b :: Event.sleep 3 ::
        (runBatches sr b f rest (acc ++ rows)).1,
       (runBatches sr b f rest (acc ++ rows)).2) := by
  conv_lhs => unfold runBatches
  rw [h]
  simp only [hp]
  rw [if_pos hlt]

theorem runBatches_cons_ok_nosleep (sr : SearchResults) (b : Int)
    (f : Int → Except Unit (List RawRecord)) (s : Int) (rest : List Int)
    (acc : List Row) (recs : List RawRecord) (rows : List Row)
    (h : f s = Except.ok recs) (hp : parseRecords recs = Except.ok rows)
    (hlt : ¬ s + b < (sr.Count : Int)) :
    runBatches sr b f (s :: rest) acc =
      (Event.fetch sr.WebEnv sr.QueryKey s b ::
        (runBatches sr b f rest (acc ++ rows)).1,
       (runBatches sr b f rest (acc ++ rows)).2) := by
  conv_lhs => unfold runBatches
  rw [h]
  simp only [hp]
  rw [if_neg hlt]

theorem runBatches_ne_tooLarge (sr : SearchResults) (b : Int)
    (f : Int → Except Unit (List RawRecord)) :
    ∀ (L : List Int) (acc : List Row),
      (runBatches sr b f L acc).2 ≠ Except.error Err.tooLarge := by
  intro L
  induction L with
  | nil => intro acc; simp [runBatches_nil]
  | cons s rest ih =>
    intro acc
    cases hf : f s with
    | error u => rw [runBatches_cons_err sr b f s rest acc u hf]; simp
    | ok recs =>
      cases hp : parseRecords recs with
      | error e =>
        have he := parseRecords_error_malformed recs e hp
        subst he
        rw [runBatches_cons_parse_err sr b f s rest acc recs _ hf hp]
        simp
      | ok rows =>
        by_cases hlt : s + b < (sr.Count : Int)
        · rw [runBatches_cons_ok_sleep sr b f s rest acc recs rows hf hp hlt]
          exact ih (acc ++ rows)
        · rw [runBatches_cons_ok_nosleep sr b f s rest acc recs rows hf hp hlt]
          exact ih (acc ++ rows)

theorem runBatches_tokens (sr : SearchResults) (b : Int)
    (f : Int → Except Unit (List RawRecord)) :
    ∀ (L : List Int) (acc : List Row) (w k : String) (s m : Int),
      Event.fetch w k s m ∈ (runBatches sr b f L acc).1 →
      w = sr.WebEnv ∧ k = sr.QueryKey ∧ m = b := by
  intro L
  induction L with
  | nil => intro acc w k s m h; simp [runBatches_nil] at h
  | cons s0 rest ih =>
    intro acc w k s m h
    cases hf : f s0 with
    | error u =>
      rw [runBatches_cons_err sr b f s0 rest acc u hf] at h
      simp only [List.mem_singleton, Event.fetch.injEq] at h
      exact ⟨h.1, h.2.1, h.2.2.2⟩
    | ok recs =>
      cases hp : parseRecords recs with
      | error e =>
        rw [runBatches_cons_parse_err sr b f s0 rest acc recs e hf hp] at h
        simp only [List.mem_singleton, Event.fetch.injEq] at h
        exact ⟨h.1, h.2.1, h.2.2.2⟩
      | ok rows =>
        by_cases hlt : s0 + b < (sr.Count : Int)
        · rw [runBatches_cons_ok_sleep sr b f s0 rest acc recs rows hf hp hlt] at h
          simp only [List.mem_cons, Event.fetch.injEq] at h
          rcases h with h | h | h
          · exact ⟨h.1, h.2.1, h.2.2.2⟩
          · exact absurd h (by simp)
          · exact ih (acc ++ rows) w k s m h
        · rw [runBatches_cons_ok_nosleep sr b f s0 rest acc recs rows hf hp hlt] at h
          simp only [List.mem_cons, Event.fetch.injEq] at h
          rcases h with h | h
          · exact ⟨h.1, h.2.1, h.2.2.2⟩
          · exact ih (acc ++ rows) w k s m h

theorem runBatches_ok_counts (sr : SearchResults) (b : Int)
    (f : Int → Except Unit (List RawRecord)) :
    ∀ (L : List Int) (acc : List Row) (rows : List Row),
      (runBatches sr b f L acc).2 = Except.ok rows →
      countFetches (runBatches sr b f L acc).1 = L.length ∧
      countSleeps (runBatches sr b f L acc).1 =
        L.countP (fun s => decide (s + b < (sr.Count : Int))) := by
  intro L
  induction L with
  | nil =>
    intro acc rows _
    simp [runBatches_nil, countFetches, countSleeps]
  | cons s rest ih =>
    intro acc rows h
    cases hf : f s with
    | error u =>
      rw [runBatches_cons_err sr b f s rest acc u hf] at h
      exact absurd h (by simp)
    | ok recs =>
      cases hp : parseRecords recs with
      | error e =>
        rw [runBatches_cons_parse_err sr b f s rest acc recs e hf hp] at h
        exact absurd h (by simp)
      | ok rows2 =>
        by_cases hlt : s + b < (sr.Count : Int)
        · rw [runBatches_cons_ok_sleep sr b f s rest acc recs rows2 hf hp hlt] at h ⊢
          have ihc := ih (acc ++ rows2) rows h
          simp [countFetches, countSleeps, List.countP_cons, hlt] at ihc ⊢
          omega
        · rw [runBatches_cons_ok_nosleep sr b f s rest acc recs rows2 hf hp hlt] at h ⊢
          have ihc := ih (acc ++ rows2) rows h
          simp [countFetches, countSleeps, List.countP_cons, hlt] at ihc ⊢
          omega

theorem runBatches_abort (sr : SearchResults) (b : Int)
    (f : Int → Except Unit (List RawRecord)) :
    ∀ (L : List Int) (acc : List Row) (N : Nat) (hN : N < L.length),
      (∀ j (hj : j < N), ∃ recs rows,
          f (L.get ⟨j, Nat.lt_trans hj hN⟩) = Except.ok recs ∧
          parseRecords recs = Except.ok rows) →
      ((∀ u : Unit, f (L.get ⟨N, hN⟩) = Except.error u →
          (runBatches sr b f L acc).2 = Except.error Err.transport)
       ∧ (∀ recs, f (L.get ⟨N, hN⟩) = Except.ok recs →
          parseRecords recs = Except.error Err.malformed →
          (runBatches sr b f L acc).2 = Except.error Err.malformed)) := by
  intro L
  induction L with
  | nil =>
    intro acc N hN hpre
    exact absurd hN (by simp)
  | cons s rest ih =>
    intro acc N hN hpre
    cases N with
    | zero =>
      constructor
      · intro u hfail
        rw [runBatches_cons_err sr b f s rest acc u hfail]
      · intro recs hfok hperr
        rw [runBatches_cons_parse_err sr b f s rest acc recs Err.malformed hfok hperr]
    | succ j =>
      have hN' : j < rest.length := by
        simp only [List.length_cons] at hN
        omega
      obtain ⟨recs0, rows0, hf0, hp0⟩ := hpre 0 (Nat.succ_pos j)
      have hpre' : ∀ i (hi : i < j), ∃ recs rows,
          f (rest.get ⟨i, Nat.lt_trans hi hN'⟩) = Except.ok recs ∧
          parseRecords recs = Except.ok rows := by
        intro i hi
        have := hpre (i + 1) (by omega)
        simpa only [List.get_cons_succ] using this
      have ihr := ih (acc ++ rows0) j hN' hpre'
      simp only [List.get_cons_succ]
      by_cases hlt : s + b < (sr.Count : Int)
      · rw [runBatches_cons_ok_sleep sr b f s rest acc recs0 rows0 hf0 hp0 hlt]
        exact ihr
      · rw [runBatches_cons_ok_nosleep sr b f s rest acc recs0 rows0 hf0 hp0 hlt]
        exact ihr

theorem collapseAux_true_head (l : List Char) (c : Char)
    (h : (collapseAux true l).head? = some c) : isWS c = false := by
  induction l with
  | nil => exact absurd h (by simp [collapseAux])
  | cons d t ih =>
    by_cases hd : isWS d
    · rw [show collapseAux true (d :: t) = collapseAux true t
        from by simp [collapseAux, hd]] at h
      exact ih h
    · rw [show collapseAux true (d :: t) = d :: collapseAux false t
        from by simp [collapseAux, hd]] at h
      simp only [List.head?_cons, Option.some.injEq] at h
      subst h
      simpa using hd

theorem collapseAux_inv (l : List Char) : ∀ b : Bool,
    (∀ c ∈ collapseAux b l, isWS c = true → c = ' ')
    ∧ List.Chain' (fun a c => ¬(isWS a = true ∧ isWS c = true)) (collapseAux b l) := by
  induction l with
  | nil =>
    intro b
    constructor
    · intro c hc
      exact absurd hc (by simp [collapseAux])
    · simp [collapseAux]
  | cons d t ih =>
    intro b
    by_cases hd : isWS d
    · cases b with
      | true =>
        rw [show collapseAux true (d :: t) = collapseAux true t
          from by simp [collapseAux, hd]]
        exact ih true
      | false =>
        rw [show collapseAux false (d :: t) = ' ' :: collapseAux true t
          from by simp [collapseAux, hd]]
        constructor
        · intro c hc hws
          rcases List.mem_cons.mp hc with h1 | h1
          · exact h1
          · exact (ih true).1 c h1 hws
        · rw [List.chain'_cons']
          refine ⟨?_, (ih true).2⟩
          intro y hy hcon
          have hyf := collapseAux_true_head t y (Option.mem_def.mp hy)
          exact absurd hcon.2 (by simp [hyf])
    · rw [show collapseAux b (d :: t) = d :: collapseAux false t
        from by cases b <;> simp [collapseAux, hd]]
      constructor
      · intro c hc hws
        rcases List.mem_cons.mp hc with h1 | h1
        · subst h1
          exact absurd hws hd
        · exact (ih false).1 c h1 hws
      · rw [List.chain'_cons']
        refine ⟨?_, (ih false).2⟩
        intro y hy hcon
        exact absurd hcon.1 hd

theorem collapseWS_ws_only_space (s : String) :
    ∀ c ∈ (collapseWS s).data, isWS c = true → c = ' ' :=
  (collapseAux_inv s.data false).1

theorem collapseWS_no_ws_run (s : String) :
    List.Chain' (fun a c => ¬(isWS a = true ∧ isWS c = true)) (collapseWS s).data :=
  (collapseAux_inv s.data false).2

theorem countP_range_lt (n m : Nat) :
    (List.range n).countP (fun i => decide (i < m)) = min m n := by
  induction n with
  | zero => simp
  | succ n ih =>
    rw [List.range_succ, List.countP_append, ih]
    have hc : (List.countP (fun i => decide (i < m)) [n]) = if n < m then 1 else 0 := by
      by_cases h : n < m
      · simp [h]
      · simp [h]
    rw [hc]
    by_cases h : n < m
    · rw [if_pos h, Nat.min_eq_right (Nat.le_of_lt h), Nat.min_eq_right h]
    · have hm : m ≤ n := Nat.le_of_not_lt h
      rw [if_neg h, Nat.min_eq_left hm, Nat.min_eq_left (Nat.le_trans hm (Nat.le_succ n))]
      exact Nat.add_zero m

theorem sleeps_countP (count b : Nat) (hb : 0 < b) :
    (pyRange 0 (count : Int) (b : Int)).countP
        (fun s => decide (s + (b : Int) < (count : Int))) =
      numBatches count b - 1 := by
  rw [pyRange_pos count b hb, List.countP_map]
  have hiff : ∀ i ∈ List.range (numBatches count b),
      (((fun s : Int => decide (s + (b : Int) < (count : Int))) ∘
        (fun i : Nat => ((b * i : Nat) : Int))) i = true) ↔
      ((fun i : Nat => decide (i < numBatches count b - 1)) i = true) := by
    intro i _
    simp only [Function.comp_apply, decide_eq_true_eq]
    rw [show ((b * i : Nat) : Int) + (b : Int) = ((b * i + b : Nat) : Int) from by
      push_cast; ring, Nat.cast_lt]
    have h2 := lt_numBatches_iff count b (i + 1) hb
    have hmul : b * (i + 1) = b * i + b := by ring
    omega
  rw [List.countP_congr hiff, countP_range_lt]
  omega

/-- C1: for every `count ≥ 0` and `batchSize > 0`, the API-path pager
partitions `[0, count)` into an ordered sequence of `(start, size)` batches
whose concatenated index ranges are exactly `0, 1, ..., count - 1` in order
(hence contiguous, non-overlapping, and exactly covering `[0, count)`);
each pair's size equals `min(batchSize, count - start)`; `count = 0` yields
an empty plan, and a call with a zero remote count issues no fetch. -/
theorem C1_pager_partition (count batchSize : Nat) (hb : 0 < batchSize) :
    cells (planBatches count batchSize) = List.range count
    ∧ (∀ p ∈ planBatches count batchSize, p.2 = min batchSize (count - p.1))
    ∧ (count = 0 → planBatches count batchSize = [])
    ∧ (∀ (st : EntrezState) (email : String) (key : Option String)
        (sr : SearchResults) (f : Int → Except Unit (List RawRecord)),
        sr.Count = 0 →
        (pubmed_search_biopython st email key sr (batchSize : Int) f).2 =
          ([], Except.ok [])) := by
  refine ⟨?_, ?_, ?_, ?_⟩
  · rw [planBatches_eq count batchSize hb]
    exact cells_planRange batchSize hb (numBatches count batchSize) count rfl
  · intro p hp
    unfold planBatches at hp
    obtain ⟨s, hs, rfl⟩ := List.mem_map.mp hp
    rfl
  · intro h
    subst h
    rw [planBatches_eq 0 batchSize hb, numBatches_zero batchSize hb]
    rfl
  · intro st email key sr f h
    unfold pubmed_search_biopython
    rw [if_neg (by omega)]
    have hbz : ((batchSize : Nat) : Int) ≠ 0 := by
      simp only [ne_eq, Nat.cast_eq_zero]
      omega
    rw [if_neg hbz, h, pyRange_pos 0 batchSize hb, numBatches_zero batchSize hb]
    rfl

/-- Witness for C1 at `count = 5`, `batchSize = 2`. -/
theorem C1_pager_partition_witness :
    cells (planBatches 5 2) = List.range 5
    ∧ (∀ p ∈ planBatches 5 2, p.2 = min 2 (5 - p.1))
    ∧ (5 = 0 → planBatches 5 2 = [])
    ∧ (∀ (st : EntrezState) (email : String) (key : Option String)
        (sr : SearchResults) (f : Int → Except Unit (List RawRecord)),
        sr.Count = 0 →
        (pubmed_search_biopython st email key sr ((2 : Nat) : Int) f).2 =
          ([], Except.ok [])) :=
  C1_pager_partition 5 2 (by decide)

/-- C2: a remote count above 10,000 makes the call fail immediately with
the ceiling error and issue zero fetches; with a count of at most 10,000
that error is never raised. -/
theorem C2_result_ceiling (st : EntrezState) (email : String) (key : Option String)
    (sr : SearchResults) (b : Int) (f : Int → Except Unit (List RawRecord)) :
    (sr.Count > 10000 →
      (pubmed_search_biopython st email key sr b f).2 = ([], Except.error Err.tooLarge))
    ∧ (sr.Count ≤ 10000 →
      (pubmed_search_biopython st email key sr b f).2.2 ≠ Except.error Err.tooLarge) := by
  constructor
  · intro h
    unfold pubmed_search_biopython
    rw [if_pos h]
  · intro h
    unfold pubmed_search_biopython
    rw [if_neg (by omega)]
    by_cases hb : b = 0
    · rw [if_pos hb]
      simp
    · rw [if_neg hb]
      exact runBatches_ne_tooLarge sr b f (pyRange 0 (sr.Count : Int) b) []

/-- Witness for C2 at count 10001: the ceiling error with an empty trace. -/
theorem C2_result_ceiling_witness :
    (pubmed_search_biopython st0 "" none srBig 1000 fetchOk).2 =
      ([], Except.error Err.tooLarge) :=
  (C2_result_ceiling st0 "" none srBig 1000 fetchOk).1 (by decide)

/-- C3: parsing a record fails with the malformed-record error exactly when
the `PMID` tag is absent or non-numeric (so absence of any other tag is not
an error: a numeric `PMID` alone guarantees a parsed row), and such a
failure inside any batch aborts the whole call with that error, returning
no table. -/
theorem C3_pmid_mandatory :
    (∀ rec : RawRecord,
        parseRecord rec = Except.error Err.malformed ↔ pyInt (rec.PMID.getD "") = none)
    ∧ (∀ (rec : RawRecord) (n : Int), pyInt (rec.PMID.getD "") = some n →
        ∃ row, parseRecord rec = Except.ok row ∧ row.pmid = n)
    ∧ (∀ (st : EntrezState) (email : String) (key : Option String) (sr : SearchResults)
        (b : Int) (f : Int → Except Unit (List RawRecord)) (N : Nat),
        sr.Count ≤ 10000 →
        ∀ hN : N < (pyRange 0 (sr.Count : Int) b).length,
        (∀ j (hj : j < N), ∃ recs rows,
            f ((pyRange 0 (sr.Count : Int) b).get ⟨j, Nat.lt_trans hj hN⟩) = Except.ok recs ∧
            parseRecords recs = Except.ok rows) →
        ∀ recs, f ((pyRange 0 (sr.Count : Int) b).get ⟨N, hN⟩) = Except.ok recs →
        parseRecords recs = Except.error Err.malformed →
        (pubmed_search_biopython st email key sr b f).2.2 = Except.error Err.malformed) := by
  refine ⟨?_, ?_, ?_⟩
  · intro rec
    simp only [parseRecord]
    cases hq : pyInt (rec.PMID.getD "") with
    | none => simp
    | some n => simp
  · intro rec n hq
    simp only [parseRecord, hq]
    exact ⟨_, rfl, rfl⟩
  · intro st email key sr b f N hc hN hpre recs hfok hperr
    unfold pubmed_search_biopython
    rw [if_neg (by omega)]
    by_cases hb : b = 0
    · subst hb
      have hlen : pyRangeLen 0 (sr.Count : Int) 0 = 0 := by
        unfold pyRangeLen
        rw [if_neg (by omega), if_neg (by omega)]
      rw [show pyRange 0 (sr.Count : Int) 0 = [] from by simp [pyRange, hlen]] at hN
      simp at hN
    · rw [if_neg hb]
      exact (runBatches_abort sr b f (pyRange 0 (sr.Count : Int) b) [] N hN hpre).2
        recs hfok hperr

/-- Witness for C3: a record lacking `PMID` in the second batch of a
count-3, batch-size-2 run makes the whole call fail with the
malformed-record error. -/
theorem C3_pmid_mandatory_witness :
    (pubmed_search_biopython st0 "" none srSmall 2 fetchBadAt2).2.2 =
      Except.error Err.malformed :=
  C3_pmid_mandatory.2.2 st0 "" none srSmall 2 fetchBadAt2 1 (by decide) (by decide)
    (fun j hj => by
      cases j with
      | zero => exact ⟨[okRec], _, rfl, rfl⟩
      | succ j => omega)
    [badRec] rfl rfl

/-- C4: when the batch loop runs to a successful completion it sleeps
exactly `numBatches - 1` times (in particular zero times when
`numBatches ≤ 1`). -/
theorem C4_sleep_count (st : EntrezState) (email : String) (key : Option String)
    (sr : SearchResults) (b : Nat) (hb : 0 < b)
    (f : Int → Except Unit (List RawRecord)) (rows : List Row)
    (h : (pubmed_search_biopython st email key sr (b : Int) f).2.2 = Except.ok rows) :
    countSleeps (pubmed_search_biopython st email key sr (b : Int) f).2.1 =
      numBatches sr.Count b - 1 := by
  unfold pubmed_search_biopython at h ⊢
  by_cases hc : sr.Count > 10000
  · rw [if_pos hc] at h
    exact absurd h (by simp)
  · rw [if_neg hc] at h ⊢
    have hbz : ((b : Nat) : Int) ≠ 0 := by
      simp only [ne_eq, Nat.cast_eq_zero]
      omega
    rw [if_neg hbz] at h ⊢
    have hcnt := runBatches_ok_counts sr (b : Int) f
      (pyRange 0 (sr.Count : Int) (b : Int)) [] rows h
    show countSleeps
        (runBatches sr (b : Int) f (pyRange 0 (sr.Count : Int) (b : Int)) []).1 =
      numBatches sr.Count b - 1
    rw [hcnt.2]
    exact sleeps_countP sr.Count b hb

/-- Witness for C4: count 3, batch size 2 — two batches, one sleep. -/
theorem C4_sleep_count_witness :
    countSleeps (pubmed_search_biopython st0 "" none srSmall 2 fetchOk).2.1 =
      numBatches srSmall.Count 2 - 1 :=
  C4_sleep_count st0 "" none srSmall 2 (by decide) fetchOk
    [{ pmid := 7, ti := "", ab := "", fau := Val.s "", dp := "", mh := Val.s "",
       ot := Val.s "" },
     { pmid := 7, ti := "", ab := "", fau := Val.s "", dp := "", mh := Val.s "",
       ot := Val.s "" }]
    rfl

/-- C5: every efetch request of one call carries the WebEnv/QueryKey pair
obtained once from the initial esearch (it is never refreshed), and a
successful run issues exactly `ceil(count / batchSize)` fetches. -/
theorem C5_token_reuse (st : EntrezState) (email : String) (key : Option String)
    (sr : SearchResults) (b : Nat) (hb : 0 < b)
    (f : Int → Except Unit (List RawRecord)) :
    (∀ w k s m,
        Event.fetch w k s m ∈ (pubmed_search_biopython st email key sr (b : Int) f).2.1 →
        w = sr.WebEnv ∧ k = sr.QueryKey)
    ∧ (∀ rows, (pubmed_search_biopython st email key sr (b : Int) f).2.2 = Except.ok rows →
        countFetches (pubmed_search_biopython st email key sr (b : Int) f).2.1 =
          numBatches sr.Count b) := by
  unfold pubmed_search_biopython
  by_cases hc : sr.Count > 10000
  · rw [if_pos hc]
    constructor
    · intro w k s m hm
      exact absurd hm (by simp)
    · intro rows h
      exact absurd h (by simp)
  · rw [if_neg hc]
    have hbz : ((b : Nat) : Int) ≠ 0 := by
      simp only [ne_eq, Nat.cast_eq_zero]
      omega
    rw [if_neg hbz]
    constructor
    · intro w k s m hm
      have ht := runBatches_tokens sr (b : Int) f
        (pyRange 0 (sr.Count : Int) (b : Int)) [] w k s m hm
      exact ⟨ht.1, ht.2.1⟩
    · intro rows h
      have hcnt := runBatches_ok_counts sr (b : Int) f
        (pyRange 0 (sr.Count : Int) (b : Int)) [] rows h
      show countFetches
          (runBatches sr (b : Int) f (pyRange 0 (sr.Count : Int) (b : Int)) []).1 =
        numBatches sr.Count b
      rw [hcnt.1, pyRange_pos sr.Count b hb, List.length_map, List.length_range]

/-- Witness for C5 at count 3, batch size 2. -/
theorem C5_token_reuse_witness :
    (∀ w k s m,
        Event.fetch w k s m ∈ (pubmed_search_biopython st0 "" none srSmall 2 fetchOk).2.1 →
        w = srSmall.WebEnv ∧ k = srSmall.QueryKey)
    ∧ (∀ rows, (pubmed_search_biopython st0 "" none srSmall 2 fetchOk).2.2 = Except.ok rows →
        countFetches (pubmed_search_biopython st0 "" none srSmall 2 fetchOk).2.1 =
          numBatches srSmall.Count 2) :=
  C5_token_reuse st0 "" none srSmall 2 (by decide) fetchOk

/-- C6: a fetch failure at batch N (all earlier batches having succeeded)
aborts the whole call with the transport error — the rows accumulated from
batches 0..N-1 are discarded and the caller receives no partial table. -/
theorem C6_fetch_failure_aborts (st : EntrezState) (email : String) (key : Option String)
    (sr : SearchResults) (b : Int) (f : Int → Except Unit (List RawRecord)) (N : Nat)
    (hc : sr.Count ≤ 10000)
    (hN : N < (pyRange 0 (sr.Count : Int) b).length)
    (hpre : ∀ j (hj : j < N), ∃ recs rows,
        f ((pyRange 0 (sr.Count : Int) b).get ⟨j, Nat.lt_trans hj hN⟩) = Except.ok recs ∧
        parseRecords recs = Except.ok rows)
    (hfail : f ((pyRange 0 (sr.Count : Int) b).get ⟨N, hN⟩) = Except.error ()) :
    (pubmed_search_biopython st email key sr b f).2.2 = Except.error Err.transport := by
  unfold pubmed_search_biopython
  rw [if_neg (by omega)]
  by_cases hb : b = 0
  · subst hb
    have hlen : pyRangeLen 0 (sr.Count : Int) 0 = 0 := by
      unfold pyRangeLen
      rw [if_neg (by omega), if_neg (by omega)]
    rw [show pyRange 0 (sr.Count : Int) 0 = [] from by simp [pyRange, hlen]] at hN
    simp at hN
  · rw [if_neg hb]
    exact (runBatches_abort sr b f (pyRange 0 (sr.Count : Int) b) [] N hN hpre).1 () hfail

/-- Witness for C6: the second batch of a count-3, batch-size-2 run fails,
and the whole call returns the transport error. -/
theorem C6_fetch_failure_aborts_witness :
    (pubmed_search_biopython st0 "" none srSmall 2 fetchFailAt2).2.2 =
      Except.error Err.transport :=
  C6_fetch_failure_aborts st0 "" none srSmall 2 fetchFailAt2 1 (by decide) (by decide)
    (fun j hj => by
      cases j with
      | zero => exact ⟨[okRec], _, rfl, rfl⟩
      | succ j => omega)
    rfl

/-- C7 counterexample: the local-tool path copies `TI` verbatim, so the row
parsed from a record titled `"Foo\n\tBar"` keeps that title unchanged, even
though it is not whitespace-collapsed (collapsing would give `"Foo Bar"`).
-/
theorem C7_ti_not_collapsed_cex :
    (parseRecordEdirect wsRec).map Row.ti = Except.ok "Foo\n\tBar"
    ∧ collapseWS "Foo\n\tBar" ≠ "Foo\n\tBar" := by
  exact ⟨rfl, by decide⟩

/-- C7 (amended): in the local-tool path the `ti` field of every returned
row is copied verbatim from the raw record — no whitespace collapsing is
applied to it (exactly as for `ab`); whitespace collapsing of `ti` happens
only on the API path. -/
theorem C7_ti_verbatim_edirect (rec : RawRecord) (row : Row)
    (h : parseRecordEdirect rec = Except.ok row) :
    row.ti = rec.TI.getD "" ∧ row.ab = rec.AB.getD "" := by
  simp only [parseRecordEdirect] at h
  cases hq : pyInt (rec.PMID.getD "") with
  | none =>
    rw [hq] at h
    exact absurd h (by simp)
  | some n =>
    rw [hq] at h
    have hrow := (Except.ok.injEq _ _).mp h
    rw [← hrow]
    exact ⟨rfl, rfl⟩

/-- Witness for the amended C7 at the record titled `"Foo\n\tBar"`. -/
theorem C7_ti_verbatim_edirect_witness :
    ({ pmid := 1, ti := "Foo\n\tBar", ab := "", fau := Val.s "", dp := "",
       mh := Val.s "", ot := Val.s "" } : Row).ti = wsRec.TI.getD ""
    ∧ ({ pmid := 1, ti := "Foo\n\tBar", ab := "", fau := Val.s "", dp := "",
         mh := Val.s "", ot := Val.s "" } : Row).ab = wsRec.AB.getD "" :=
  C7_ti_verbatim_edirect wsRec _ rfl

/-- C8: the API-path parser collapses every whitespace run in `ti` and `ab`
to a single space (`"Foo\n\tBar"` becomes `"Foo Bar"`; a collapsed string
contains no whitespace character other than `' '` and never two adjacent
whitespace characters), copies `fau`, `dp`, `mh`, `ot` verbatim with no
transformation, and defaults every absent non-identifier tag to the empty
string; the parse of one record is a pure function of that record. -/
theorem C8_parse_normalization :
    (∀ (rec : RawRecord) (row : Row), parseRecord rec = Except.ok row →
        row.ti = collapseWS (rec.TI.getD "") ∧ row.ab = collapseWS (rec.AB.getD "")
        ∧ row.fau = getListTag rec.FAU ∧ row.dp = rec.DP.getD ""
        ∧ row.mh = getListTag rec.MH ∧ row.ot = getListTag rec.OT)
    ∧ collapseWS "Foo\n\tBar" = "Foo Bar"
    ∧ (∀ s : String, ∀ c ∈ (collapseWS s).data, isWS c = true → c = ' ')
    ∧ (∀ s : String,
        List.Chain' (fun a c => ¬(isWS a = true ∧ isWS c = true)) (collapseWS s).data)
    ∧ getListTag none = Val.s "" := by
  refine ⟨?_, by decide, collapseWS_ws_only_space, collapseWS_no_ws_run, rfl⟩
  intro rec row h
  simp only [parseRecord] at h
  cases hq : pyInt (rec.PMID.getD "") with
  | none =>
    rw [hq] at h
    exact absurd h (by simp)
  | some n =>
    rw [hq] at h
    have hrow := (Except.ok.injEq _ _).mp h
    rw [← hrow]
    exact ⟨rfl, rfl, rfl, rfl, rfl, rfl⟩

/-- Witness for C8 at the record titled `"Foo\n\tBar"` with all other tags
absent. -/
theorem C8_parse_normalization_witness :
    ({ pmid := 1, ti := "Foo Bar", ab := "", fau := Val.s "", dp := "",
       mh := Val.s "", ot := Val.s "" } : Row).ti = collapseWS (wsRec.TI.getD "")
    ∧ ({ pmid := 1, ti := "Foo Bar", ab := "", fau := Val.s "", dp := "",
         mh := Val.s "", ot := Val.s "" } : Row).ab = collapseWS (wsRec.AB.getD "")
    ∧ ({ pmid := 1, ti := "Foo Bar", ab := "", fau := Val.s "", dp := "",
         mh := Val.s "", ot := Val.s "" } : Row).fau = getListTag wsRec.FAU
    ∧ ({ pmid := 1, ti := "Foo Bar", ab := "", fau := Val.s "", dp := "",
         mh := Val.s "", ot := Val.s "" } : Row).dp = wsRec.DP.getD ""
    ∧ ({ pmid := 1, ti := "Foo Bar", ab := "", fau := Val.s "", dp := "",
         mh := Val.s "", ot := Val.s "" } : Row).mh = getListTag wsRec.MH
    ∧ ({ pmid := 1, ti := "Foo Bar", ab := "", fau := Val.s "", dp := "",
         mh := Val.s "", ot := Val.s "" } : Row).ot = getListTag wsRec.OT :=
  C8_parse_normalization.1 wsRec _ rfl

/-- C9: each call writes the caller's email onto the shared module-level
client unconditionally (even the default empty string), but writes the
api_key only when a truthy (non-None, non-empty) key is supplied — a call
with `api_key = None` or `api_key = ''` leaves the previously installed key
in place, so the credential field is never cleared between calls. -/
theorem C9_credential_frame (st : EntrezState) (email : String) (key : Option String)
    (sr : SearchResults) (b : Int) (f : Int → Except Unit (List RawRecord)) :
    ((pubmed_search_biopython st email key sr b f).1.email = email)
    ∧ (key = none → (pubmed_search_biopython st email key sr b f).1.api_key = st.api_key)
    ∧ (key = some "" →
        (pubmed_search_biopython st email key sr b f).1.api_key = st.api_key)
    ∧ (∀ s, s ≠ "" → key = some s →
        (pubmed_search_biopython st email key sr b f).1.api_key = some s) := by
  have h1 : (pubmed_search_biopython st email key sr b f).1 =
      setCredentials st email key := by
    unfold pubmed_search_biopython
    by_cases hc : sr.Count > 10000
    · rw [if_pos hc]
    · rw [if_neg hc]
      by_cases hb : b = 0
      · rw [if_pos hb]
      · rw [if_neg hb]
  refine ⟨?_, ?_, ?_, ?_⟩
  · rw [h1]
    rfl
  · intro hk
    subst hk
    rw [h1]
    rfl
  · intro hk
    subst hk
    rw [h1]
    rfl
  · intro s hs hk
    subst hk
    rw [h1]
    simp only [setCredentials, pyTruthy]
    rw [if_pos (by simp [hs])]

/-- Witness for C9: a second call with `api_key = None` keeps the key
installed by an earlier call while overwriting the email. -/
theorem C9_credential_frame_witness :
    ((pubmed_search_biopython { email := "old", api_key := some "K1" } "new" none
        srSmall 2 fetchOk).1.email = "new")
    ∧ ((pubmed_search_biopython { email := "old", api_key := some "K1" } "new" none
        srSmall 2 fetchOk).1.api_key = some "K1") :=
  ⟨(C9_credential_frame { email := "old", api_key := some "K1" } "new" none
      srSmall 2 fetchOk).1,
   (C9_credential_frame { email := "old", api_key := some "K1" } "new" none
      srSmall 2 fetchOk).2.1 rfl⟩

/-- C10 counterexample: at count 10001 (which is `> 0`) a call with
batch_size −1 raises the ceiling error instead of returning an empty
table, so the claim as stated fails for counts above 10,000. -/
theorem C10_negative_batch_cex :
    (pubmed_search_biopython st0 "" none srBig (-1) fetchOk).2.2 =
      Except.error Err.tooLarge
    ∧ srBig.Count > 0 :=
  ⟨rfl, by decide⟩

/-- C10 (amended): for every `0 < count ≤ 10000`, a call with a negative
batch_size returns an empty table with no error, no fetch and no sleep —
the `batchSize > 0` precondition is not validated at the interface. -/
theorem C10_negative_batch (st : EntrezState) (email : String) (key : Option String)
    (sr : SearchResults) (b : Int) (f : Int → Except Unit (List RawRecord))
    (hb : b < 0) (h1 : 0 < sr.Count) (h2 : sr.Count ≤ 10000) :
    (pubmed_search_biopython st email key sr b f).2 = ([], Except.ok []) := by
  unfold pubmed_search_biopython
  rw [if_neg (by omega), if_neg (by omega)]
  have hlen : pyRangeLen 0 (sr.Count : Int) b = 0 := by
    unfold pyRangeLen
    rw [if_neg (by omega), if_neg (by omega)]
  rw [show pyRange 0 (sr.Count : Int) b = [] from by simp [pyRange, hlen]]
  rfl

/-- Witness for the amended C10 at count 3, batch_size −1. -/
theorem C10_negative_batch_witness :
    (pubmed_search_biopython st0 "" none srSmall (-1) fetchOk).2 = ([], Except.ok []) :=
  C10_negative_batch st0 "" none srSmall (-1) fetchOk (by decide) (by decide) (by decide)
